import Mathlib

/-!
Verification of `CommandQueue.hpp` (therselman/CommandQueue): a lock-free
double-buffered command queue.  We shallowly embed the data model and the
operations of the source:

* the packed command-record byte layout and the worker's arena walk
  (`thread()`, lines 94-104 of the source);
* the producer-side `allocCommand` with its 32-bit capacity-doubling loop;
* the typed marshalling stubs `executeStubV0..V6` / `returnStubV0..V6` and
  the payload layouts written by `execute(...)` / `returns(...)`;
* the double-buffer exchanger (`acquireBuffer` / `releaseBuffer` and the
  worker's exchange cycle) as an explicit interleaving step relation for a
  single producer and the worker.

Machine integers are modelled as `Nat` with explicit `% 2 ^ 32` where the
source uses `uint32_t` arithmetic.  Pointer-sized slots are 8 bytes and
`uint32_t` slots are 4 bytes, matching the 64-bit build the source targets.
-/

/-- Size in bytes of a pointer slot (`sizeof(PFNCommandHandler*)`,
`sizeof(TCB*)`, `sizeof(R)` for pointer types `R`) on the 64-bit target. -/
def PTRSIZE : Nat := 8

/-- Size in bytes of the `uint32_t` length slot. -/
def U32SIZE : Nat := 4

/-- Modulus of `uint32_t` arithmetic. -/
def U32 : Nat := 2 ^ 32

/-- Little-endian encoding of a value into `w` bytes (how a `w`-byte scalar
sits in the arena's `char*` buffer). -/
def encodeLE : Nat → Nat → List Nat
  | 0, _ => []
  | w + 1, v => (v % 256) :: encodeLE w (v / 256)

/-- Little-endian decoding of a byte list (reading a scalar back out of the
arena through a typed pointer). -/
def decodeLE : List Nat → Nat
  | [] => 0
  | b :: bs => b + 256 * decodeLE bs

theorem length_encodeLE (w v : Nat) : (encodeLE w v).length = w := by
  induction w generalizing v with
  | zero => rfl
  | succ w ih => simp [encodeLE, ih]

theorem decodeLE_encodeLE (w v : Nat) (h : v < 256 ^ w) :
    decodeLE (encodeLE w v) = v := by
  induction w generalizing v with
  | zero =>
    simp only [encodeLE, decodeLE]
    omega
  | succ w ih =>
    have hdiv : v / 256 < 256 ^ w := by
      rw [Nat.div_lt_iff_lt_mul (by norm_num : 0 < 256)]
      calc v < 256 ^ (w + 1) := h
        _ = 256 ^ w * 256 := by ring
    simp [encodeLE, decodeLE, ih _ hdiv]
    omega

/-- One queued command record, at the abstraction level of the walker: the
handler slot's value (a code address) and the raw payload bytes.  The length
slot is not a field because `allocCommand` always writes
`sizeof(TCB*) + sizeof(uint32_t) + size` there (source line 172/183). -/
structure CmdRec where
  fn : Nat
  payload : List Nat

/-- Total length of a record, as written into its length slot:
`sizeof(TCB*) + sizeof(uint32_t) + size`. -/
def recLen (r : CmdRec) : Nat := PTRSIZE + U32SIZE + r.payload.length

/-- A record is well formed when its two header scalars fit their slots. -/
def wfRec (r : CmdRec) : Prop := r.fn < 256 ^ PTRSIZE ∧ recLen r < 256 ^ U32SIZE

/-- Byte image of one record in the arena: handler pointer, then the 32-bit
total length, then the payload (source lines 181-185). -/
def encRec (r : CmdRec) : List Nat :=
  encodeLE PTRSIZE r.fn ++ encodeLE U32SIZE (recLen r) ++ r.payload

/-- Byte image of a list of consecutive records. -/
def recBytes (rs : List CmdRec) : List Nat := (rs.map encRec).flatten

theorem length_encRec (r : CmdRec) : (encRec r).length = recLen r := by
  simp only [encRec, List.length_append, length_encodeLE, recLen]

theorem recLen_pos (r : CmdRec) : 0 < recLen r := by
  simp only [recLen, PTRSIZE, U32SIZE]
  omega

theorem recBytes_cons (r : CmdRec) (rs : List CmdRec) :
    recBytes (r :: rs) = encRec r ++ recBytes rs := by
  simp [recBytes]

theorem length_recBytes_pos (rs : List CmdRec) (h : rs ≠ []) :
    0 < (recBytes rs).length := by
  cases rs with
  | nil => exact absurd rfl h
  | cons r rs =>
    rw [recBytes_cons, List.length_append, length_encRec]
    have := recLen_pos r
    omega

theorem length_le_length_recBytes (rs : List CmdRec) :
    rs.length ≤ (recBytes rs).length := by
  induction rs with
  | nil => simp [recBytes]
  | cons r rs ih =>
    rw [recBytes_cons, List.length_append, length_encRec, List.length_cons]
    have := recLen_pos r
    omega

/-- The mutable buffer record of the source (`queue_buffer_t`): the backing
bytes (`commands`), the capacity (`size`) and the write cursor (`used`). -/
structure queue_buffer_t where
  commands : List Nat
  size : Nat
  used : Nat
deriving Repr, DecidableEq

/-- The worker's inner do-while walk (source lines 98-103), one fuel unit per
loop iteration.  Each iteration reads the handler slot at the cursor, emits
the invocation event `(handler value, payload offset)` — the source calls
`(*(PFNCommandHandler*)base_addr)(base_addr + sizeof(PFNCommandHandler*) +
sizeof(uint32_t))` — then advances the cursor by the value of the length
slot, and continues while the cursor is below `fin` (= `used`).  `none`
means the fuel ran out before the loop exited. -/
def walkFrom (m : List Nat) (fin : Nat) : Nat → Nat → Option (List (Nat × Nat))
  | 0, _ => none
  | fuel + 1, cur =>
    let h := decodeLE ((m.drop cur).take PTRSIZE)
    let len := decodeLE ((m.drop (cur + PTRSIZE)).take U32SIZE)
    if cur + len < fin then
      Option.map (fun evs => (h, cur + PTRSIZE + U32SIZE) :: evs)
        (walkFrom m fin fuel (cur + len))
    else some [(h, cur + PTRSIZE + U32SIZE)]

/-- The worker's treatment of an acquired buffer (source lines 94-105): if
`used` is nonzero, walk the records from byte 0 to `used` and then reset
`used` to 0, leaving `commands` and `size` untouched.  Fuel `used` is enough
for any well-formed arena since every record occupies at least one byte. -/
def runArena (b : queue_buffer_t) : Option (List (Nat × Nat) × queue_buffer_t) :=
  if b.used ≠ 0 then
    Option.map (fun evs => (evs, { b with used := 0 }))
      (walkFrom b.commands b.used b.used 0)
  else some ([], b)

/-- The expected invocation events of a record list laid out from byte
offset `cur`: each record's handler, paired with the offset of its payload
(record base plus the two header slots), in order. -/
def recEvents (cur : Nat) : List CmdRec → List (Nat × Nat)
  | [] => []
  | r :: rs => (r.fn, cur + PTRSIZE + U32SIZE) :: recEvents (cur + recLen r) rs

theorem length_recEvents (cur : Nat) (rs : List CmdRec) :
    (recEvents cur rs).length = rs.length := by
  induction rs generalizing cur with
  | nil => rfl
  | cons r rs ih => simp [recEvents, ih]

theorem walkFrom_spec (rs : List CmdRec) :
    ∀ (cur fuel : Nat) (m rest : List Nat) (fin : Nat),
      rs ≠ [] → (∀ r ∈ rs, wfRec r) →
      m.drop cur = recBytes rs ++ rest →
      fin = cur + (recBytes rs).length →
      rs.length ≤ fuel →
      walkFrom m fin fuel cur = some (recEvents cur rs) := by
  induction rs with
  | nil => intro _ _ _ _ _ h; exact absurd rfl h
  | cons r rs ih =>
    intro cur fuel m rest fin _ hwf hdrop hfin hfuel
    obtain ⟨fuel, rfl⟩ : ∃ f, fuel = f + 1 := by
      cases fuel with
      | zero => simp at hfuel
      | succ f => exact ⟨f, rfl⟩
    have hwfr : wfRec r := hwf r (by simp)
    have hbytes : m.drop cur =
        encodeLE PTRSIZE r.fn ++ (encodeLE U32SIZE (recLen r) ++
          (r.payload ++ (recBytes rs ++ rest))) := by
      rw [hdrop]; simp [recBytes, encRec]
    -- the handler read
    have hh : decodeLE ((m.drop cur).take PTRSIZE) = r.fn := by
      rw [hbytes, List.take_left' (length_encodeLE PTRSIZE r.fn),
        decodeLE_encodeLE _ _ hwfr.1]
    -- the length-slot read
    have hdrop8 : m.drop (cur + PTRSIZE) =
        encodeLE U32SIZE (recLen r) ++ (r.payload ++ (recBytes rs ++ rest)) := by
      have : m.drop (cur + PTRSIZE) = (m.drop cur).drop PTRSIZE := by
        rw [List.drop_drop, Nat.add_comm]
      rw [this, hbytes, List.drop_left' (length_encodeLE PTRSIZE r.fn)]
    have hl : decodeLE ((m.drop (cur + PTRSIZE)).take U32SIZE) = recLen r := by
      rw [hdrop8, List.take_left' (length_encodeLE U32SIZE (recLen r)),
        decodeLE_encodeLE _ _ hwfr.2]
    have hlen : (recBytes (r :: rs)).length = recLen r + (recBytes rs).length := by
      simp [recBytes, length_encRec]
    cases rs with
    | nil =>
      -- last record: cursor lands exactly on fin, loop exits
      have hstop : ¬ cur + recLen r < fin := by
        rw [hfin, hlen]
        simp [recBytes]
      rw [walkFrom]
      simp only [hh, hl, hstop, if_false]
      rfl
    | cons r2 rs2 =>
      have hgo : cur + recLen r < fin := by
        rw [hfin, hlen]
        have := length_recBytes_pos (r2 :: rs2) (by simp)
        omega
      have hdrop' : m.drop (cur + recLen r) = recBytes (r2 :: rs2) ++ rest := by
        have h1 : m.drop (cur + recLen r) = (m.drop cur).drop (recLen r) := by
          rw [List.drop_drop, Nat.add_comm]
        have h2 : (encRec r).length = recLen r := length_encRec r
        rw [h1, hdrop]
        rw [show recBytes (r :: (r2 :: rs2)) ++ rest =
          encRec r ++ (recBytes (r2 :: rs2) ++ rest) by simp [recBytes]]
        rw [← h2, List.drop_left]
      have hfin' : fin = (cur + recLen r) + (recBytes (r2 :: rs2)).length := by
        rw [hfin, hlen]; omega
      have hres := ih (cur + recLen r) fuel m rest fin (by simp)
        (fun x hx => hwf x (by simp [hx]))
        hdrop' hfin' (by simp at hfuel ⊢; omega)
      rw [walkFrom]
      simp only [hh, hl, hgo, if_true, hres, Option.map_some]
      rfl

/-- The capacity-doubling loop of `allocCommand` (source lines 176-177):
`do buffer->size *= 2; while (buffer->used > buffer->size);` in `uint32_t`
arithmetic, so each doubling is taken modulo `2 ^ 32`.  One fuel unit per
iteration; `none` means the loop has not exited within the given fuel (with
fuel 33 that happens exactly when the C loop never exits, since after 32
doublings a 32-bit size is 0 and stays 0). -/
def growLoop : Nat → Nat → Nat → Option Nat
  | 0, _, _ => none
  | fuel + 1, size, needed =>
    let size' := size * 2 % U32
    if needed > size' then growLoop fuel size' needed else some size'

/-- Write a byte string into a memory image at an offset, in place. -/
def writeBytesAt (m : List Nat) (off : Nat) (xs : List Nat) : List Nat :=
  m.take off ++ xs ++ m.drop (off + xs.length)

/-- `allocCommand` (source lines 168-186): record the base cursor, compute
the record's total size `sizeof(TCB*) + sizeof(uint32_t) + size`, advance
`used`, double `size` while `used > size` (reallocating, which preserves the
old bytes; the fresh tail is modelled as zeros), then write the handler
value and the total size into the two header slots and return the new
buffer together with the offset of the payload region. -/
def allocCommand (b : queue_buffer_t) (fn : Nat) (size : Nat) :
    Option (queue_buffer_t × Nat) :=
  let base := b.used
  let reserved := (PTRSIZE + U32SIZE + size) % U32
  let used' := (b.used + reserved) % U32
  let osize := if used' > b.size then growLoop 33 b.size used' else some b.size
  match osize with
  | none => none
  | some size' =>
    let mem := b.commands ++ List.replicate (size' - b.commands.length) 0
    some ({ commands := writeBytesAt mem base
              (encodeLE PTRSIZE fn ++ encodeLE U32SIZE reserved),
            size := size', used := used' },
          base + PTRSIZE + U32SIZE)

theorem growLoop_spec (fuel : Nat) :
    ∀ size needed, 1 ≤ size → size < needed → needed ≤ 2 ^ 31 →
      needed ≤ size * 2 ^ fuel →
      ∃ s', growLoop fuel size needed = some s' ∧ needed ≤ s' ∧ size ≤ s' ∧
        ∃ k, s' = size * 2 ^ k := by
  induction fuel with
  | zero =>
    intro size needed h1 h2 _ h4
    simp only [pow_zero, mul_one] at h4
    omega
  | succ fuel ih =>
    intro size needed h1 h2 h3 h4
    have hnowrap : size * 2 % U32 = size * 2 := by
      apply Nat.mod_eq_of_lt
      have : size * 2 < 2 ^ 31 * 2 := by omega
      simp only [U32]
      omega
    rw [growLoop]
    simp only [hnowrap]
    by_cases hcase : needed > size * 2
    · simp only [if_pos hcase]
      obtain ⟨s', hs', hneed, hle, k, hk⟩ :=
        ih (size * 2) needed (by omega) hcase h3
          (by rw [mul_assoc, ← pow_succ']; exact h4)
      exact ⟨s', hs', hneed, by omega, k + 1, by rw [hk]; ring⟩
    · simp only [if_neg hcase]
      exact ⟨size * 2, rfl, by omega, by omega, 1, by ring⟩

/-- A marshalling codec for a C++ value type of byte size `n`: how `execute`
writes a typed argument into the payload (`enc`) and how the matching stub
reads it back through a typed pointer (`dec`).  The two laws state that the
producer and the consumer use identical layout rules, which is exactly the
contract the argument-marshalling surface relies on (a `memcpy` of a
trivially copyable value reads back as itself). -/
structure Codec (n : Nat) (α : Type) where
  enc : α → List Nat
  dec : List Nat → α
  enc_length : ∀ a, (enc a).length = n
  dec_enc : ∀ a, dec (enc a) = a

/-- Read a typed value out of a payload at a byte offset
(`*(T*)(data + off)`). -/
def readAs {n : Nat} {α : Type} (c : Codec n α) (data : List Nat) (off : Nat) : α :=
  c.dec ((data.drop off).take n)

/-- Read a pointer-sized scalar out of a payload at a byte offset
(`*(TCB*)(data + off)` for a pointer type `TCB`). -/
def readPtr (data : List Nat) (off : Nat) : Nat :=
  decodeLE ((data.drop off).take PTRSIZE)

theorem readAs_skip' {n : Nat} {α : Type} (c : Codec n α) (pre rest : List Nat)
    (off k : Nat) (h : pre.length = k) :
    readAs c (pre ++ rest) (k + off) = readAs c rest off := by
  subst h
  unfold readAs
  rw [List.drop_append]

theorem readAs_skip0 {n : Nat} {α : Type} (c : Codec n α) (pre rest : List Nat)
    (k : Nat) (h : pre.length = k) :
    readAs c (pre ++ rest) k = readAs c rest 0 := by
  have h2 := readAs_skip' c pre rest 0 k h
  rwa [Nat.add_zero] at h2

theorem readAs_here {n : Nat} {α : Type} (c : Codec n α) (a : α) (post : List Nat) :
    readAs c (c.enc a ++ post) 0 = a := by
  unfold readAs
  rw [List.drop_zero, List.take_left' (c.enc_length a), c.dec_enc]

theorem readAs_here' {n : Nat} {α : Type} (c : Codec n α) (a : α) :
    readAs c (c.enc a) 0 = a := by
  have h := readAs_here c a []
  rwa [List.append_nil] at h

theorem readPtr_skip' (pre rest : List Nat) (off k : Nat) (h : pre.length = k) :
    readPtr (pre ++ rest) (k + off) = readPtr rest off := by
  subst h
  unfold readPtr
  rw [List.drop_append]

theorem readPtr_skip0 (pre rest : List Nat) (k : Nat) (h : pre.length = k) :
    readPtr (pre ++ rest) k = readPtr rest 0 := by
  have h2 := readPtr_skip' pre rest 0 k h
  rwa [Nat.add_zero] at h2

theorem readPtr_here (a : Nat) (post : List Nat) (ha : a < 256 ^ PTRSIZE) :
    readPtr (encodeLE PTRSIZE a ++ post) 0 = a := by
  unfold readPtr
  rw [List.drop_zero, List.take_left' (length_encodeLE PTRSIZE a),
    decodeLE_encodeLE _ _ ha]

theorem readPtr_here' (a : Nat) (ha : a < 256 ^ PTRSIZE) :
    readPtr (encodeLE PTRSIZE a) 0 = a := by
  have h := readPtr_here a [] ha
  rwa [List.append_nil] at h

/-!
The `execute` stub functions (source lines 192-253).  A C++ function pointer
is a code address; we model the address space of callables as an environment
`env` mapping pointer-sized addresses to the callable's semantics, so
`*(TCB*)data` followed by a call is `env (readPtr data 0)` applied to the
unpacked arguments.  The argument offsets are exactly the source's
`sizeof(TCB*) + sizeof(T1) + ...` sums.  Since the stubs of the source
return nothing and only have the effect of the call, each stub here returns
the value of that call.
-/

def executeStubV0 {r : Type} (env : Nat → r) (data : List Nat) : r :=
  env (readPtr data 0)

def executeStubV1 {a1 r : Type} {n1 : Nat} (env : Nat → a1 → r)
    (c1 : Codec n1 a1) (data : List Nat) : r :=
  env (readPtr data 0) (readAs c1 data PTRSIZE)

def executeStubV2 {a1 a2 r : Type} {n1 n2 : Nat} (env : Nat → a1 → a2 → r)
    (c1 : Codec n1 a1) (c2 : Codec n2 a2) (data : List Nat) : r :=
  env (readPtr data 0) (readAs c1 data PTRSIZE) (readAs c2 data (PTRSIZE + n1))

def executeStubV3 {a1 a2 a3 r : Type} {n1 n2 n3 : Nat}
    (env : Nat → a1 → a2 → a3 → r)
    (c1 : Codec n1 a1) (c2 : Codec n2 a2) (c3 : Codec n3 a3)
    (data : List Nat) : r :=
  env (readPtr data 0) (readAs c1 data PTRSIZE) (readAs c2 data (PTRSIZE + n1))
    (readAs c3 data (PTRSIZE + (n1 + n2)))

def executeStubV4 {a1 a2 a3 a4 r : Type} {n1 n2 n3 n4 : Nat}
    (env : Nat → a1 → a2 → a3 → a4 → r)
    (c1 : Codec n1 a1) (c2 : Codec n2 a2) (c3 : Codec n3 a3) (c4 : Codec n4 a4)
    (data : List Nat) : r :=
  env (readPtr data 0) (readAs c1 data PTRSIZE) (readAs c2 data (PTRSIZE + n1))
    (readAs c3 data (PTRSIZE + (n1 + n2)))
    (readAs c4 data (PTRSIZE + (n1 + (n2 + n3))))

def executeStubV5 {a1 a2 a3 a4 a5 r : Type} {n1 n2 n3 n4 n5 : Nat}
    (env : Nat → a1 → a2 → a3 → a4 → a5 → r)
    (c1 : Codec n1 a1) (c2 : Codec n2 a2) (c3 : Codec n3 a3) (c4 : Codec n4 a4)
    (c5 : Codec n5 a5) (data : List Nat) : r :=
  env (readPtr data 0) (readAs c1 data PTRSIZE) (readAs c2 data (PTRSIZE + n1))
    (readAs c3 data (PTRSIZE + (n1 + n2)))
    (readAs c4 data (PTRSIZE + (n1 + (n2 + n3))))
    (readAs c5 data (PTRSIZE + (n1 + (n2 + (n3 + n4)))))

def executeStubV6 {a1 a2 a3 a4 a5 a6 r : Type} {n1 n2 n3 n4 n5 n6 : Nat}
    (env : Nat → a1 → a2 → a3 → a4 → a5 → a6 → r)
    (c1 : Codec n1 a1) (c2 : Codec n2 a2) (c3 : Codec n3 a3) (c4 : Codec n4 a4)
    (c5 : Codec n5 a5) (c6 : Codec n6 a6) (data : List Nat) : r :=
  env (readPtr data 0) (readAs c1 data PTRSIZE) (readAs c2 data (PTRSIZE + n1))
    (readAs c3 data (PTRSIZE + (n1 + n2)))
    (readAs c4 data (PTRSIZE + (n1 + (n2 + n3))))
    (readAs c5 data (PTRSIZE + (n1 + (n2 + (n3 + n4)))))
    (readAs c6 data (PTRSIZE + (n1 + (n2 + (n3 + (n4 + n5))))))

/-!
The payloads written by the `execute(...)` overloads (source lines 343-432):
the callable's pointer value at offset 0, then each argument in declaration
order at the source's `sizeof` offsets, which the concatenations below
realise because each codec's encoding has exactly its declared size.
-/

def executePayloadV0 (fn : Nat) : List Nat := encodeLE PTRSIZE fn

def executePayloadV1 {a1 : Type} {n1 : Nat} (c1 : Codec n1 a1)
    (fn : Nat) (v1 : a1) : List Nat :=
  encodeLE PTRSIZE fn ++ c1.enc v1

def executePayloadV2 {a1 a2 : Type} {n1 n2 : Nat}
    (c1 : Codec n1 a1) (c2 : Codec n2 a2) (fn : Nat) (v1 : a1) (v2 : a2) :
    List Nat :=
  encodeLE PTRSIZE fn ++ (c1.enc v1 ++ c2.enc v2)

def executePayloadV3 {a1 a2 a3 : Type} {n1 n2 n3 : Nat}
    (c1 : Codec n1 a1) (c2 : Codec n2 a2) (c3 : Codec n3 a3)
    (fn : Nat) (v1 : a1) (v2 : a2) (v3 : a3) : List Nat :=
  encodeLE PTRSIZE fn ++ (c1.enc v1 ++ (c2.enc v2 ++ c3.enc v3))

def executePayloadV4 {a1 a2 a3 a4 : Type} {n1 n2 n3 n4 : Nat}
    (c1 : Codec n1 a1) (c2 : Codec n2 a2) (c3 : Codec n3 a3) (c4 : Codec n4 a4)
    (fn : Nat) (v1 : a1) (v2 : a2) (v3 : a3) (v4 : a4) : List Nat :=
  encodeLE PTRSIZE fn ++ (c1.enc v1 ++ (c2.enc v2 ++ (c3.enc v3 ++ c4.enc v4)))

def executePayloadV5 {a1 a2 a3 a4 a5 : Type} {n1 n2 n3 n4 n5 : Nat}
    (c1 : Codec n1 a1) (c2 : Codec n2 a2) (c3 : Codec n3 a3) (c4 : Codec n4 a4)
    (c5 : Codec n5 a5)
    (fn : Nat) (v1 : a1) (v2 : a2) (v3 : a3) (v4 : a4) (v5 : a5) : List Nat :=
  encodeLE PTRSIZE fn ++
    (c1.enc v1 ++ (c2.enc v2 ++ (c3.enc v3 ++ (c4.enc v4 ++ c5.enc v5))))

def executePayloadV6 {a1 a2 a3 a4 a5 a6 : Type} {n1 n2 n3 n4 n5 n6 : Nat}
    (c1 : Codec n1 a1) (c2 : Codec n2 a2) (c3 : Codec n3 a3) (c4 : Codec n4 a4)
    (c5 : Codec n5 a5) (c6 : Codec n6 a6)
    (fn : Nat) (v1 : a1) (v2 : a2) (v3 : a3) (v4 : a4) (v5 : a5) (v6 : a6) :
    List Nat :=
  encodeLE PTRSIZE fn ++
    (c1.enc v1 ++ (c2.enc v2 ++ (c3.enc v3 ++ (c4.enc v4 ++
      (c5.enc v5 ++ c6.enc v6)))))

/-!
The `returns` stub functions (source lines 259-321).  The payload begins
with the callable's pointer, then the producer-supplied return-destination
pointer `R` (pointer-sized), then the arguments at the source's
`sizeof(TCB*) + sizeof(R) + sizeof(T1) + ...` offsets.  Each stub models
`**(R*)(data + sizeof(TCB*)) = function(v1, ..., vN)` as the pair
(destination address read from the payload, value of the call); `applyReturn`
then performs the store into a memory modelled as `Nat → r`.
-/

def returnStubV0 {r : Type} (env : Nat → r) (data : List Nat) : Nat × r :=
  (readPtr data PTRSIZE, env (readPtr data 0))

def returnStubV1 {a1 r : Type} {n1 : Nat} (env : Nat → a1 → r)
    (c1 : Codec n1 a1) (data : List Nat) : Nat × r :=
  (readPtr data PTRSIZE,
   env (readPtr data 0) (readAs c1 data (PTRSIZE + PTRSIZE)))

def returnStubV2 {a1 a2 r : Type} {n1 n2 : Nat} (env : Nat → a1 → a2 → r)
    (c1 : Codec n1 a1) (c2 : Codec n2 a2) (data : List Nat) : Nat × r :=
  (readPtr data PTRSIZE,
   env (readPtr data 0) (readAs c1 data (PTRSIZE + PTRSIZE))
     (readAs c2 data (PTRSIZE + (PTRSIZE + n1))))

def returnStubV3 {a1 a2 a3 r : Type} {n1 n2 n3 : Nat}
    (env : Nat → a1 → a2 → a3 → r)
    (c1 : Codec n1 a1) (c2 : Codec n2 a2) (c3 : Codec n3 a3)
    (data : List Nat) : Nat × r :=
  (readPtr data PTRSIZE,
   env (readPtr data 0) (readAs c1 data (PTRSIZE + PTRSIZE))
     (readAs c2 data (PTRSIZE + (PTRSIZE + n1)))
     (readAs c3 data (PTRSIZE + (PTRSIZE + (n1 + n2)))))

def returnStubV4 {a1 a2 a3 a4 r : Type} {n1 n2 n3 n4 : Nat}
    (env : Nat → a1 → a2 → a3 → a4 → r)
    (c1 : Codec n1 a1) (c2 : Codec n2 a2) (c3 : Codec n3 a3) (c4 : Codec n4 a4)
    (data : List Nat) : Nat × r :=
  (readPtr data PTRSIZE,
   env (readPtr data 0) (readAs c1 data (PTRSIZE + PTRSIZE))
     (readAs c2 data (PTRSIZE + (PTRSIZE + n1)))
     (readAs c3 data (PTRSIZE + (PTRSIZE + (n1 + n2))))
     (readAs c4 data (PTRSIZE + (PTRSIZE + (n1 + (n2 + n3))))))

def returnStubV5 {a1 a2 a3 a4 a5 r : Type} {n1 n2 n3 n4 n5 : Nat}
    (env : Nat → a1 → a2 → a3 → a4 → a5 → r)
    (c1 : Codec n1 a1) (c2 : Codec n2 a2) (c3 : Codec n3 a3) (c4 : Codec n4 a4)
    (c5 : Codec n5 a5) (data : List Nat) : Nat × r :=
  (readPtr data PTRSIZE,
   env (readPtr data 0) (readAs c1 data (PTRSIZE + PTRSIZE))
     (readAs c2 data (PTRSIZE + (PTRSIZE + n1)))
     (readAs c3 data (PTRSIZE + (PTRSIZE + (n1 + n2))))
     (readAs c4 data (PTRSIZE + (PTRSIZE + (n1 + (n2 + n3)))))
     (readAs c5 data (PTRSIZE + (PTRSIZE + (n1 + (n2 + (n3 + n4)))))))

def returnStubV6 {a1 a2 a3 a4 a5 a6 r : Type} {n1 n2 n3 n4 n5 n6 : Nat}
    (env : Nat → a1 → a2 → a3 → a4 → a5 → a6 → r)
    (c1 : Codec n1 a1) (c2 : Codec n2 a2) (c3 : Codec n3 a3) (c4 : Codec n4 a4)
    (c5 : Codec n5 a5) (c6 : Codec n6 a6) (data : List Nat) : Nat × r :=
  (readPtr data PTRSIZE,
   env (readPtr data 0) (readAs c1 data (PTRSIZE + PTRSIZE))
     (readAs c2 data (PTRSIZE + (PTRSIZE + n1)))
     (readAs c3 data (PTRSIZE + (PTRSIZE + (n1 + n2))))
     (readAs c4 data (PTRSIZE + (PTRSIZE + (n1 + (n2 + n3)))))
     (readAs c5 data (PTRSIZE + (PTRSIZE + (n1 + (n2 + (n3 + n4))))))
     (readAs c6 data (PTRSIZE + (PTRSIZE + (n1 + (n2 + (n3 + (n4 + n5))))))))

/-- The store `**(R*)(data + sizeof(TCB*)) = value` performed by a return
stub, on a memory modelled as a function from addresses to `r` values. -/
def applyReturn {r : Type} (mem : Nat → r) (ev : Nat × r) : Nat → r :=
  fun x => if x = ev.1 then ev.2 else mem x

/-!
The payloads written by the `returns(...)` overloads (source lines 438-535):
callable pointer, then the return-destination pointer, then the arguments in
declaration order.
-/

def returnsPayloadV0 (fn dest : Nat) : List Nat :=
  encodeLE PTRSIZE fn ++ encodeLE PTRSIZE dest

def returnsPayloadV1 {a1 : Type} {n1 : Nat} (c1 : Codec n1 a1)
    (fn dest : Nat) (v1 : a1) : List Nat :=
  encodeLE PTRSIZE fn ++ (encodeLE PTRSIZE dest ++ c1.enc v1)

def returnsPayloadV2 {a1 a2 : Type} {n1 n2 : Nat}
    (c1 : Codec n1 a1) (c2 : Codec n2 a2)
    (fn dest : Nat) (v1 : a1) (v2 : a2) : List Nat :=
  encodeLE PTRSIZE fn ++ (encodeLE PTRSIZE dest ++ (c1.enc v1 ++ c2.enc v2))

def returnsPayloadV3 {a1 a2 a3 : Type} {n1 n2 n3 : Nat}
    (c1 : Codec n1 a1) (c2 : Codec n2 a2) (c3 : Codec n3 a3)
    (fn dest : Nat) (v1 : a1) (v2 : a2) (v3 : a3) : List Nat :=
  encodeLE PTRSIZE fn ++
    (encodeLE PTRSIZE dest ++ (c1.enc v1 ++ (c2.enc v2 ++ c3.enc v3)))

def returnsPayloadV4 {a1 a2 a3 a4 : Type} {n1 n2 n3 n4 : Nat}
    (c1 : Codec n1 a1) (c2 : Codec n2 a2) (c3 : Codec n3 a3) (c4 : Codec n4 a4)
    (fn dest : Nat) (v1 : a1) (v2 : a2) (v3 : a3) (v4 : a4) : List Nat :=
  encodeLE PTRSIZE fn ++
    (encodeLE PTRSIZE dest ++
      (c1.enc v1 ++ (c2.enc v2 ++ (c3.enc v3 ++ c4.enc v4))))

def returnsPayloadV5 {a1 a2 a3 a4 a5 : Type} {n1 n2 n3 n4 n5 : Nat}
    (c1 : Codec n1 a1) (c2 : Codec n2 a2) (c3 : Codec n3 a3) (c4 : Codec n4 a4)
    (c5 : Codec n5 a5)
    (fn dest : Nat) (v1 : a1) (v2 : a2) (v3 : a3) (v4 : a4) (v5 : a5) :
    List Nat :=
  encodeLE PTRSIZE fn ++
    (encodeLE PTRSIZE dest ++
      (c1.enc v1 ++ (c2.enc v2 ++ (c3.enc v3 ++ (c4.enc v4 ++ c5.enc v5)))))

def returnsPayloadV6 {a1 a2 a3 a4 a5 a6 : Type} {n1 n2 n3 n4 n5 n6 : Nat}
    (c1 : Codec n1 a1) (c2 : Codec n2 a2) (c3 : Codec n3 a3) (c4 : Codec n4 a4)
    (c5 : Codec n5 a5) (c6 : Codec n6 a6)
    (fn dest : Nat) (v1 : a1) (v2 : a2) (v3 : a3) (v4 : a4) (v5 : a5)
    (v6 : a6) : List Nat :=
  encodeLE PTRSIZE fn ++
    (encodeLE PTRSIZE dest ++
      (c1.enc v1 ++ (c2.enc v2 ++ (c3.enc v3 ++ (c4.enc v4 ++
        (c5.enc v5 ++ c6.enc v6))))))

/-- A concrete codec for a one-byte boolean value, used to exhibit concrete
round trips. -/
def boolCodec : Codec 1 Bool where
  enc b := [if b then 1 else 0]
  dec bs := bs.headD 0 == 1
  enc_length a := by cases a <;> rfl
  dec_enc a := by cases a <;> rfl

/-- Claim C6: typed-enqueue round trip.  For every callable of 0 to 6
parameters (an address `fn` interpreted by the callable environment `env`)
and argument values `v1 ... vN`, executing the record produced by
`execute(f, v1, ..., vN)` — that is, running the generated unpacking stub
`executeStubVN` on the payload written by the matching `execute` overload —
invokes exactly `f(v1, ..., vN)`: the stub reads back, at the same offsets
and in declaration order, the callable and the argument values the producer
packed end-to-end into the payload. -/
theorem execute_unpacks_roundtrip :
    (∀ (r : Type) (env : Nat → r) (fn : Nat),
      fn < 256 ^ PTRSIZE →
      executeStubV0 env (executePayloadV0 fn) = env fn) ∧
    (∀ (a1 r : Type) (n1 : Nat) (c1 : Codec n1 a1) (env : Nat → a1 → r)
      (fn : Nat) (v1 : a1),
      fn < 256 ^ PTRSIZE →
      executeStubV1 env c1 (executePayloadV1 c1 fn v1) = env fn v1) ∧
    (∀ (a1 a2 r : Type) (n1 n2 : Nat) (c1 : Codec n1 a1) (c2 : Codec n2 a2)
      (env : Nat → a1 → a2 → r) (fn : Nat) (v1 : a1) (v2 : a2),
      fn < 256 ^ PTRSIZE →
      executeStubV2 env c1 c2 (executePayloadV2 c1 c2 fn v1 v2) =
        env fn v1 v2) ∧
    (∀ (a1 a2 a3 r : Type) (n1 n2 n3 : Nat)
      (c1 : Codec n1 a1) (c2 : Codec n2 a2) (c3 : Codec n3 a3)
      (env : Nat → a1 → a2 → a3 → r) (fn : Nat) (v1 : a1) (v2 : a2) (v3 : a3),
      fn < 256 ^ PTRSIZE →
      executeStubV3 env c1 c2 c3 (executePayloadV3 c1 c2 c3 fn v1 v2 v3) =
        env fn v1 v2 v3) ∧
    (∀ (a1 a2 a3 a4 r : Type) (n1 n2 n3 n4 : Nat)
      (c1 : Codec n1 a1) (c2 : Codec n2 a2) (c3 : Codec n3 a3)
      (c4 : Codec n4 a4) (env : Nat → a1 → a2 → a3 → a4 → r)
      (fn : Nat) (v1 : a1) (v2 : a2) (v3 : a3) (v4 : a4),
      fn < 256 ^ PTRSIZE →
      executeStubV4 env c1 c2 c3 c4
        (executePayloadV4 c1 c2 c3 c4 fn v1 v2 v3 v4) = env fn v1 v2 v3 v4) ∧
    (∀ (a1 a2 a3 a4 a5 r : Type) (n1 n2 n3 n4 n5 : Nat)
      (c1 : Codec n1 a1) (c2 : Codec n2 a2) (c3 : Codec n3 a3)
      (c4 : Codec n4 a4) (c5 : Codec n5 a5)
      (env : Nat → a1 → a2 → a3 → a4 → a5 → r)
      (fn : Nat) (v1 : a1) (v2 : a2) (v3 : a3) (v4 : a4) (v5 : a5),
      fn < 256 ^ PTRSIZE →
      executeStubV5 env c1 c2 c3 c4 c5
        (executePayloadV5 c1 c2 c3 c4 c5 fn v1 v2 v3 v4 v5) =
        env fn v1 v2 v3 v4 v5) ∧
    (∀ (a1 a2 a3 a4 a5 a6 r : Type) (n1 n2 n3 n4 n5 n6 : Nat)
      (c1 : Codec n1 a1) (c2 : Codec n2 a2) (c3 : Codec n3 a3)
      (c4 : Codec n4 a4) (c5 : Codec n5 a5) (c6 : Codec n6 a6)
      (env : Nat → a1 → a2 → a3 → a4 → a5 → a6 → r)
      (fn : Nat) (v1 : a1) (v2 : a2) (v3 : a3) (v4 : a4) (v5 : a5) (v6 : a6),
      fn < 256 ^ PTRSIZE →
      executeStubV6 env c1 c2 c3 c4 c5 c6
        (executePayloadV6 c1 c2 c3 c4 c5 c6 fn v1 v2 v3 v4 v5 v6) =
        env fn v1 v2 v3 v4 v5 v6) := by
  refine ⟨?_, ?_, ?_, ?_, ?_, ?_, ?_⟩
  · intro r env fn hfn
    simp only [executeStubV0, executePayloadV0, readPtr_here', hfn]
  · intro a1 r n1 c1 env fn v1 hfn
    simp only [executeStubV1, executePayloadV1, readPtr_here, readPtr_here',
      readAs_skip', readAs_skip0, readAs_here, readAs_here', length_encodeLE,
      c1.enc_length, hfn]
  · intro a1 a2 r n1 n2 c1 c2 env fn v1 v2 hfn
    simp only [executeStubV2, executePayloadV2, readPtr_here, readPtr_here',
      readAs_skip', readAs_skip0, readAs_here, readAs_here', length_encodeLE,
      c1.enc_length, c2.enc_length, hfn]
  · intro a1 a2 a3 r n1 n2 n3 c1 c2 c3 env fn v1 v2 v3 hfn
    simp only [executeStubV3, executePayloadV3, readPtr_here, readPtr_here',
      readAs_skip', readAs_skip0, readAs_here, readAs_here', length_encodeLE,
      c1.enc_length, c2.enc_length, c3.enc_length, hfn]
  · intro a1 a2 a3 a4 r n1 n2 n3 n4 c1 c2 c3 c4 env fn v1 v2 v3 v4 hfn
    simp only [executeStubV4, executePayloadV4, readPtr_here, readPtr_here',
      readAs_skip', readAs_skip0, readAs_here, readAs_here', length_encodeLE,
      c1.enc_length, c2.enc_length, c3.enc_length, c4.enc_length, hfn]
  · intro a1 a2 a3 a4 a5 r n1 n2 n3 n4 n5 c1 c2 c3 c4 c5 env fn v1 v2 v3 v4 v5
      hfn
    simp only [executeStubV5, executePayloadV5, readPtr_here, readPtr_here',
      readAs_skip', readAs_skip0, readAs_here, readAs_here', length_encodeLE,
      c1.enc_length, c2.enc_length, c3.enc_length, c4.enc_length,
      c5.enc_length, hfn]
  · intro a1 a2 a3 a4 a5 a6 r n1 n2 n3 n4 n5 n6 c1 c2 c3 c4 c5 c6 env fn v1 v2
      v3 v4 v5 v6 hfn
    simp only [executeStubV6, executePayloadV6, readPtr_here, readPtr_here',
      readAs_skip', readAs_skip0, readAs_here, readAs_here', length_encodeLE,
      c1.enc_length, c2.enc_length, c3.enc_length, c4.enc_length,
      c5.enc_length, c6.enc_length, hfn]

/-- Witness for C6: all seven arities evaluated at concrete inputs (handler
address 3, boolean arguments via `boolCodec`). -/
theorem execute_unpacks_roundtrip_witness :
    executeStubV0 (fun a => a) (executePayloadV0 3) = 3 ∧
    executeStubV1 (fun a v1 => (a, v1)) boolCodec
      (executePayloadV1 boolCodec 3 true) = (3, true) ∧
    executeStubV2 (fun a v1 v2 => (a, v1, v2)) boolCodec boolCodec
      (executePayloadV2 boolCodec boolCodec 3 true false) = (3, true, false) ∧
    executeStubV3 (fun a v1 v2 v3 => (a, v1, v2, v3)) boolCodec boolCodec
      boolCodec (executePayloadV3 boolCodec boolCodec boolCodec 3
        true false true) = (3, true, false, true) ∧
    executeStubV4 (fun a v1 v2 v3 v4 => (a, v1, v2, v3, v4)) boolCodec
      boolCodec boolCodec boolCodec
      (executePayloadV4 boolCodec boolCodec boolCodec boolCodec 3
        true false true false) = (3, true, false, true, false) ∧
    executeStubV5 (fun a v1 v2 v3 v4 v5 => (a, v1, v2, v3, v4, v5)) boolCodec
      boolCodec boolCodec boolCodec boolCodec
      (executePayloadV5 boolCodec boolCodec boolCodec boolCodec boolCodec 3
        true false true false true) = (3, true, false, true, false, true) ∧
    executeStubV6 (fun a v1 v2 v3 v4 v5 v6 => (a, v1, v2, v3, v4, v5, v6))
      boolCodec boolCodec boolCodec boolCodec boolCodec boolCodec
      (executePayloadV6 boolCodec boolCodec boolCodec boolCodec boolCodec
        boolCodec 3 true false true false true false) =
      (3, true, false, true, false, true, false) :=
  ⟨execute_unpacks_roundtrip.1 Nat (fun a => a) 3 (by decide),
   execute_unpacks_roundtrip.2.1 Bool (Nat × Bool) 1 boolCodec
     (fun a v1 => (a, v1)) 3 true (by decide),
   execute_unpacks_roundtrip.2.2.1 Bool Bool (Nat × Bool × Bool) 1 1 boolCodec
     boolCodec (fun a v1 v2 => (a, v1, v2)) 3 true false (by decide),
   execute_unpacks_roundtrip.2.2.2.1 Bool Bool Bool _ 1 1 1 boolCodec
     boolCodec boolCodec (fun a v1 v2 v3 => (a, v1, v2, v3)) 3 true false true
     (by decide),
   execute_unpacks_roundtrip.2.2.2.2.1 Bool Bool Bool Bool _ 1 1 1 1 boolCodec
     boolCodec boolCodec boolCodec (fun a v1 v2 v3 v4 => (a, v1, v2, v3, v4))
     3 true false true false (by decide),
   execute_unpacks_roundtrip.2.2.2.2.2.1 Bool Bool Bool Bool Bool _ 1 1 1 1 1
     boolCodec boolCodec boolCodec boolCodec boolCodec
     (fun a v1 v2 v3 v4 v5 => (a, v1, v2, v3, v4, v5)) 3 true false true false
     true (by decide),
   execute_unpacks_roundtrip.2.2.2.2.2.2 Bool Bool Bool Bool Bool Bool _
     1 1 1 1 1 1 boolCodec boolCodec boolCodec boolCodec boolCodec boolCodec
     (fun a v1 v2 v3 v4 v5 v6 => (a, v1, v2, v3, v4, v5, v6)) 3 true false
     true false true false (by decide)⟩

/-- Claim C7: return-value round trip.  For the return-capturing form
`returns(f, dest, v1, ..., vN)` with 0 to 6 parameters, after the worker
executes the record — running `returnStubVN` on the payload written by the
matching `returns` overload and performing its store — the value at the
destination address `dest` equals the value returned by `f(v1, ..., vN)`. -/
theorem returns_roundtrip :
    (∀ (r : Type) (env : Nat → r) (mem : Nat → r) (fn dest : Nat),
      fn < 256 ^ PTRSIZE → dest < 256 ^ PTRSIZE →
      applyReturn mem (returnStubV0 env (returnsPayloadV0 fn dest)) dest =
        env fn) ∧
    (∀ (a1 r : Type) (n1 : Nat) (c1 : Codec n1 a1) (env : Nat → a1 → r)
      (mem : Nat → r) (fn dest : Nat) (v1 : a1),
      fn < 256 ^ PTRSIZE → dest < 256 ^ PTRSIZE →
      applyReturn mem (returnStubV1 env c1
        (returnsPayloadV1 c1 fn dest v1)) dest = env fn v1) ∧
    (∀ (a1 a2 r : Type) (n1 n2 : Nat) (c1 : Codec n1 a1) (c2 : Codec n2 a2)
      (env : Nat → a1 → a2 → r) (mem : Nat → r) (fn dest : Nat)
      (v1 : a1) (v2 : a2),
      fn < 256 ^ PTRSIZE → dest < 256 ^ PTRSIZE →
      applyReturn mem (returnStubV2 env c1 c2
        (returnsPayloadV2 c1 c2 fn dest v1 v2)) dest = env fn v1 v2) ∧
    (∀ (a1 a2 a3 r : Type) (n1 n2 n3 : Nat)
      (c1 : Codec n1 a1) (c2 : Codec n2 a2) (c3 : Codec n3 a3)
      (env : Nat → a1 → a2 → a3 → r) (mem : Nat → r) (fn dest : Nat)
      (v1 : a1) (v2 : a2) (v3 : a3),
      fn < 256 ^ PTRSIZE → dest < 256 ^ PTRSIZE →
      applyReturn mem (returnStubV3 env c1 c2 c3
        (returnsPayloadV3 c1 c2 c3 fn dest v1 v2 v3)) dest =
        env fn v1 v2 v3) ∧
    (∀ (a1 a2 a3 a4 r : Type) (n1 n2 n3 n4 : Nat)
      (c1 : Codec n1 a1) (c2 : Codec n2 a2) (c3 : Codec n3 a3)
      (c4 : Codec n4 a4) (env : Nat → a1 → a2 → a3 → a4 → r)
      (mem : Nat → r) (fn dest : Nat) (v1 : a1) (v2 : a2) (v3 : a3) (v4 : a4),
      fn < 256 ^ PTRSIZE → dest < 256 ^ PTRSIZE →
      applyReturn mem (returnStubV4 env c1 c2 c3 c4
        (returnsPayloadV4 c1 c2 c3 c4 fn dest v1 v2 v3 v4)) dest =
        env fn v1 v2 v3 v4) ∧
    (∀ (a1 a2 a3 a4 a5 r : Type) (n1 n2 n3 n4 n5 : Nat)
      (c1 : Codec n1 a1) (c2 : Codec n2 a2) (c3 : Codec n3 a3)
      (c4 : Codec n4 a4) (c5 : Codec n5 a5)
      (env : Nat → a1 → a2 → a3 → a4 → a5 → r)
      (mem : Nat → r) (fn dest : Nat) (v1 : a1) (v2 : a2) (v3 : a3) (v4 : a4)
      (v5 : a5),
      fn < 256 ^ PTRSIZE → dest < 256 ^ PTRSIZE →
      applyReturn mem (returnStubV5 env c1 c2 c3 c4 c5
        (returnsPayloadV5 c1 c2 c3 c4 c5 fn dest v1 v2 v3 v4 v5)) dest =
        env fn v1 v2 v3 v4 v5) ∧
    (∀ (a1 a2 a3 a4 a5 a6 r : Type) (n1 n2 n3 n4 n5 n6 : Nat)
      (c1 : Codec n1 a1) (c2 : Codec n2 a2) (c3 : Codec n3 a3)
      (c4 : Codec n4 a4) (c5 : Codec n5 a5) (c6 : Codec n6 a6)
      (env : Nat → a1 → a2 → a3 → a4 → a5 → a6 → r)
      (mem : Nat → r) (fn dest : Nat) (v1 : a1) (v2 : a2) (v3 : a3) (v4 : a4)
      (v5 : a5) (v6 : a6),
      fn < 256 ^ PTRSIZE → dest < 256 ^ PTRSIZE →
      applyReturn mem (returnStubV6 env c1 c2 c3 c4 c5 c6
        (returnsPayloadV6 c1 c2 c3 c4 c5 c6 fn dest v1 v2 v3 v4 v5 v6)) dest =
        env fn v1 v2 v3 v4 v5 v6) := by
  refine ⟨?_, ?_, ?_, ?_, ?_, ?_, ?_⟩
  · intro r env mem fn dest hfn hdest
    simp only [returnStubV0, returnsPayloadV0, applyReturn, readPtr_here,
      readPtr_here', readPtr_skip', readPtr_skip0, length_encodeLE, hfn,
      hdest, if_true, eq_self_iff_true]
  · intro a1 r n1 c1 env mem fn dest v1 hfn hdest
    simp only [returnStubV1, returnsPayloadV1, applyReturn, readPtr_here,
      readPtr_here', readPtr_skip', readPtr_skip0, readAs_skip', readAs_skip0,
      readAs_here, readAs_here', length_encodeLE, c1.enc_length, hfn, hdest,
      if_true, eq_self_iff_true]
  · intro a1 a2 r n1 n2 c1 c2 env mem fn dest v1 v2 hfn hdest
    simp only [returnStubV2, returnsPayloadV2, applyReturn, readPtr_here,
      readPtr_here', readPtr_skip', readPtr_skip0, readAs_skip', readAs_skip0,
      readAs_here, readAs_here', length_encodeLE, c1.enc_length,
      c2.enc_length, hfn, hdest, if_true, eq_self_iff_true]
  · intro a1 a2 a3 r n1 n2 n3 c1 c2 c3 env mem fn dest v1 v2 v3 hfn hdest
    simp only [returnStubV3, returnsPayloadV3, applyReturn, readPtr_here,
      readPtr_here', readPtr_skip', readPtr_skip0, readAs_skip', readAs_skip0,
      readAs_here, readAs_here', length_encodeLE, c1.enc_length,
      c2.enc_length, c3.enc_length, hfn, hdest, if_true, eq_self_iff_true]
  · intro a1 a2 a3 a4 r n1 n2 n3 n4 c1 c2 c3 c4 env mem fn dest v1 v2 v3 v4
      hfn hdest
    simp only [returnStubV4, returnsPayloadV4, applyReturn, readPtr_here,
      readPtr_here', readPtr_skip', readPtr_skip0, readAs_skip', readAs_skip0,
      readAs_here, readAs_here', length_encodeLE, c1.enc_length,
      c2.enc_length, c3.enc_length, c4.enc_length, hfn, hdest, if_true,
      eq_self_iff_true]
  · intro a1 a2 a3 a4 a5 r n1 n2 n3 n4 n5 c1 c2 c3 c4 c5 env mem fn dest v1
      v2 v3 v4 v5 hfn hdest
    simp only [returnStubV5, returnsPayloadV5, applyReturn, readPtr_here,
      readPtr_here', readPtr_skip', readPtr_skip0, readAs_skip', readAs_skip0,
      readAs_here, readAs_here', length_encodeLE, c1.enc_length,
      c2.enc_length, c3.enc_length, c4.enc_length, c5.enc_length, hfn, hdest,
      if_true, eq_self_iff_true]
  · intro a1 a2 a3 a4 a5 a6 r n1 n2 n3 n4 n5 n6 c1 c2 c3 c4 c5 c6 env mem fn
      dest v1 v2 v3 v4 v5 v6 hfn hdest
    simp only [returnStubV6, returnsPayloadV6, applyReturn, readPtr_here,
      readPtr_here', readPtr_skip', readPtr_skip0, readAs_skip', readAs_skip0,
      readAs_here, readAs_here', length_encodeLE, c1.enc_length,
      c2.enc_length, c3.enc_length, c4.enc_length, c5.enc_length,
      c6.enc_length, hfn, hdest, if_true, eq_self_iff_true]

/-- Witness for C7: all seven arities evaluated at concrete inputs (handler
address 3, destination address 5, memory initially constant `none`-like 0,
boolean arguments counted by the callable). -/
theorem returns_roundtrip_witness :
    applyReturn (fun _ => 0) (returnStubV0 (fun a => a + 1)
      (returnsPayloadV0 3 5)) 5 = 4 ∧
    applyReturn (fun _ => 0) (returnStubV1 (fun a _ => a + 2) boolCodec
      (returnsPayloadV1 boolCodec 3 5 true)) 5 = 5 ∧
    applyReturn (fun _ => 0) (returnStubV2 (fun a _ _ => a + 3) boolCodec
      boolCodec (returnsPayloadV2 boolCodec boolCodec 3 5 true false)) 5 = 6 ∧
    applyReturn (fun _ => 0) (returnStubV3 (fun a _ _ _ => a + 4) boolCodec
      boolCodec boolCodec
      (returnsPayloadV3 boolCodec boolCodec boolCodec 3 5 true false true)) 5 =
      7 ∧
    applyReturn (fun _ => 0) (returnStubV4 (fun a _ _ _ _ => a + 5) boolCodec
      boolCodec boolCodec boolCodec
      (returnsPayloadV4 boolCodec boolCodec boolCodec boolCodec 3 5
        true false true false)) 5 = 8 ∧
    applyReturn (fun _ => 0) (returnStubV5 (fun a _ _ _ _ _ => a + 6)
      boolCodec boolCodec boolCodec boolCodec boolCodec
      (returnsPayloadV5 boolCodec boolCodec boolCodec boolCodec boolCodec 3 5
        true false true false true)) 5 = 9 ∧
    applyReturn (fun _ => 0) (returnStubV6 (fun a _ _ _ _ _ _ => a + 7)
      boolCodec boolCodec boolCodec boolCodec boolCodec boolCodec
      (returnsPayloadV6 boolCodec boolCodec boolCodec boolCodec boolCodec
        boolCodec 3 5 true false true false true false)) 5 = 10 :=
  ⟨returns_roundtrip.1 Nat (fun a => a + 1) (fun _ => 0) 3 5 (by decide)
     (by decide),
   returns_roundtrip.2.1 Bool Nat 1 boolCodec (fun a _ => a + 2) (fun _ => 0)
     3 5 true (by decide) (by decide),
   returns_roundtrip.2.2.1 Bool Bool Nat 1 1 boolCodec boolCodec
     (fun a _ _ => a + 3) (fun _ => 0) 3 5 true false (by decide) (by decide),
   returns_roundtrip.2.2.2.1 Bool Bool Bool Nat 1 1 1 boolCodec boolCodec
     boolCodec (fun a _ _ _ => a + 4) (fun _ => 0) 3 5 true false true
     (by decide) (by decide),
   returns_roundtrip.2.2.2.2.1 Bool Bool Bool Bool Nat 1 1 1 1 boolCodec
     boolCodec boolCodec boolCodec (fun a _ _ _ _ => a + 5) (fun _ => 0) 3 5
     true false true false (by decide) (by decide),
   returns_roundtrip.2.2.2.2.2.1 Bool Bool Bool Bool Bool Nat 1 1 1 1 1
     boolCodec boolCodec boolCodec boolCodec boolCodec
     (fun a _ _ _ _ _ => a + 6) (fun _ => 0) 3 5 true false true false true
     (by decide) (by decide),
   returns_roundtrip.2.2.2.2.2.2 Bool Bool Bool Bool Bool Bool Nat
     1 1 1 1 1 1 boolCodec boolCodec boolCodec boolCodec boolCodec boolCodec
     (fun a _ _ _ _ _ _ => a + 7) (fun _ => 0) 3 5 true false true false true
     false (by decide) (by decide)⟩

/-!
The double-buffer exchanger.  The queue owns two arenas (`buffer[0]`,
`buffer[1]`, called A and B) and two atomic slots `primary` and `secondary`;
a producer and the worker trade ownership through atomic exchanges.  We
model the interleaving of one producer thread with the worker thread as an
explicit step relation.  Each arena is its identity plus the sequence of
commands currently stored in it (one abstract command per enqueued record);
`out` is the sequence of commands the worker has invoked so far and `enq`
the sequence the producer has enqueued so far, both ghost.
-/

/-- Names of the two arenas `buffer[0]` and `buffer[1]`. -/
inductive AB
  | A
  | B
deriving DecidableEq, Repr

/-- An arena: its identity and the commands its records currently hold. -/
structure Arena where
  id : AB
  data : List Nat
deriving DecidableEq, Repr

/-- The worker's control point in `thread()` (source lines 83-115):
`w0` before the initial `secondary.exchange(nullptr)`, `w1` at the top of
the outer loop about to `primary.exchange(buffer)`, `w2` inside the inner
`while (buffer == nullptr)` spin on `secondary`, `w3` holding a non-null
buffer about to test `used` and walk. -/
inductive WP
  | w0
  | w1
  | w2
  | w3
deriving DecidableEq, Repr

/-- The producer's control point in an enqueue operation: `p0` outside any
call, `p1` between `acquireBuffer()` and `allocCommand`, `p2` after writing
the record and before `releaseBuffer`. -/
inductive PP
  | p0
  | p1
  | p2
deriving DecidableEq, Repr

/-- A state of the exchanger: the `primary` and `secondary` atomic slots,
the producer-held and worker-held arenas (none = `nullptr` / not holding),
the two control points, and the ghost command sequences. -/
structure QState where
  prim : Option Arena
  sec : Option Arena
  ph : Option Arena
  wh : Option Arena
  wp : WP
  pp : PP
  out : List Nat
  enq : List Nat
deriving DecidableEq, Repr

/-- The state after `init`: A in `primary`, B in `secondary`, both empty,
nobody holding anything, worker before its first secondary exchange. -/
def QState.init : QState :=
  { prim := some ⟨AB.A, []⟩, sec := some ⟨AB.B, []⟩, ph := none, wh := none,
    wp := WP.w0, pp := PP.p0, out := [], enq := [] }

/-- `releaseBuffer` (source lines 156-162): try
`primary.compare_exchange_strong(nullptr, buffer)`; if the CAS fails (the
primary slot already holds an arena) store the buffer into `secondary`;
then `cvDequeue.notify_one()` — which the source calls unconditionally, on
both paths.  Returns the new primary slot, the new secondary slot, and
whether the dispatch condition variable was signalled. -/
def releaseBuffer (prim sec : Option Arena) (b : Arena) :
    Option Arena × Option Arena × Bool :=
  match prim with
  | none => (some b, sec, true)
  | some p => (some p, some b, true)

/-- One interleaving step of the producer/worker system.  Producer steps:
`pAcq` is the successful iteration of the `acquireBuffer` spin
(`primary.exchange(nullptr)` returning non-null, source line 148); `pWrite`
is `allocCommand` appending one record (source line 173/181-183); `pRelP`
and `pRelS` are the two paths of `releaseBuffer` (CAS into an empty
`primary`, or the store to `secondary` after a failed CAS).  Worker steps:
`wGrab0` is the initial `secondary.exchange(nullptr)` (source line 85);
`wSwapSome`/`wSwapNone` are `primary.exchange(buffer)` (line 89) according
to whether `primary` held an arena; `wGrabS` is a successful
`secondary.exchange(nullptr)` of the inner spin (line 92); `wWalk` covers
lines 94-105: invoke every record of the held arena in order and reset its
`used` cursor (when the held arena is empty this is the no-work iteration,
which leaves everything unchanged). -/
inductive Step : QState → QState → Prop
  | pAcq (s : QState) (a : Arena) :
      s.pp = PP.p0 → s.prim = some a →
      Step s { s with prim := none, ph := some a, pp := PP.p1 }
  | pWrite (s : QState) (a : Arena) (c : Nat) :
      s.pp = PP.p1 → s.ph = some a →
      Step s { s with ph := some ⟨a.id, a.data ++ [c]⟩,
                      enq := s.enq ++ [c], pp := PP.p2 }
  | pRelP (s : QState) (a : Arena) :
      s.pp = PP.p2 → s.ph = some a → s.prim = none →
      Step s { s with prim := some a, ph := none, pp := PP.p0 }
  | pRelS (s : QState) (a b : Arena) :
      s.pp = PP.p2 → s.ph = some a → s.prim = some b →
      Step s { s with sec := some a, ph := none, pp := PP.p0 }
  | wGrab0 (s : QState) :
      s.wp = WP.w0 →
      Step s { s with wh := s.sec, sec := none, wp := WP.w1 }
  | wSwapSome (s : QState) (a : Arena) :
      s.wp = WP.w1 → s.prim = some a →
      Step s { s with prim := s.wh, wh := some a, wp := WP.w3 }
  | wSwapNone (s : QState) :
      s.wp = WP.w1 → s.prim = none →
      Step s { s with prim := s.wh, wh := none, wp := WP.w2 }
  | wGrabS (s : QState) (a : Arena) :
      s.wp = WP.w2 → s.sec = some a →
      Step s { s with wh := some a, sec := none, wp := WP.w3 }
  | wWalk (s : QState) (a : Arena) :
      s.wp = WP.w3 → s.wh = some a →
      Step s { s with out := s.out ++ a.data, wh := some ⟨a.id, []⟩,
                      wp := WP.w1 }

/-- States reachable from the post-`init` state. -/
inductive Reachable : QState → Prop
  | init : Reachable QState.init
  | step {s s' : QState} : Reachable s → Step s s' → Reachable s'

/-- How many times arena `x` occurs in one ownership cell. -/
def ocnt (x : AB) : Option Arena → Nat
  | none => 0
  | some a => if a.id = x then 1 else 0

/-- How many times arena `x` occurs in the four ownership cells
primary / secondary / producer-held / worker-held. -/
def occ (x : AB) (s : QState) : Nat :=
  ocnt x s.prim + ocnt x s.sec + ocnt x s.ph + ocnt x s.wh

/-- The non-worker-side arena (in `primary`, or held by the producer)
carries exactly the enqueued-but-not-yet-consumed suffix that follows
`pre`. -/
def restShape (s : QState) (pre : List Nat) : Prop :=
  (∃ f, s.prim = some f ∧ s.ph = none ∧ s.out ++ (pre ++ f.data) = s.enq) ∨
  (s.prim = none ∧ ∃ f, s.ph = some f ∧ s.out ++ (pre ++ f.data) = s.enq)

/-- The strengthened phase-indexed invariant of the exchanger, by worker
control point. -/
def shapeAt : WP → QState → Prop
  | WP.w0, s => s.wh = none ∧ s.out = [] ∧
      (∃ b, s.sec = some b ∧ b.data = []) ∧ restShape s []
  | WP.w1, s => (∃ e, s.wh = some e ∧ e.data = []) ∧ s.sec = none ∧
      restShape s []
  | WP.w2, s => s.wh = none ∧
      ((s.sec = none ∧ ∃ e f, s.prim = some e ∧ e.data = [] ∧
          s.ph = some f ∧ s.out ++ f.data = s.enq) ∨
        (∃ g, s.sec = some g ∧ restShape s g.data))
  | WP.w3, s => s.sec = none ∧ ∃ w, s.wh = some w ∧ restShape s w.data

/-- The full inductive invariant: the producer holds an arena exactly in
control points `p1`/`p2`; every arena occurs exactly once across the four
ownership cells; and the phase shape holds. -/
def QueueInv (s : QState) : Prop :=
  (s.ph = none ↔ s.pp = PP.p0) ∧ (∀ x, occ x s = 1) ∧ shapeAt s.wp s

theorem inv_init : QueueInv QState.init := by
  refine ⟨by simp [QState.init], ?_, ?_⟩
  · intro x
    cases x <;> rfl
  · refine ⟨rfl, rfl, ⟨⟨AB.B, []⟩, rfl, rfl⟩, Or.inl ⟨⟨AB.A, []⟩, rfl, rfl, rfl⟩⟩

theorem ocnt_none (x : AB) : ocnt x none = 0 := rfl

theorem ocnt_some (x : AB) (a : Arena) :
    ocnt x (some a) = if a.id = x then 1 else 0 := rfl

theorem occ_pAcq (s : QState) (a : Arena) (h2 : s.prim = some a)
    (ph0 : s.ph = none) (hocc : ∀ x, occ x s = 1) :
    ∀ x, occ x { s with prim := none, ph := some a, pp := PP.p1 } = 1 := by
  intro x
  have h := hocc x
  simp only [occ, ocnt_none, ocnt_some, h2, ph0] at h ⊢
  omega

theorem occ_pWrite (s : QState) (a : Arena) (c : Nat) (h2 : s.ph = some a)
    (hocc : ∀ x, occ x s = 1) :
    ∀ x, occ x { s with ph := some ⟨a.id, a.data ++ [c]⟩,
                        enq := s.enq ++ [c], pp := PP.p2 } = 1 := by
  intro x
  have h := hocc x
  simp only [occ, ocnt_none, ocnt_some, h2] at h ⊢
  omega

theorem occ_pRelP (s : QState) (a : Arena) (h2 : s.ph = some a)
    (h3 : s.prim = none) (hocc : ∀ x, occ x s = 1) :
    ∀ x, occ x { s with prim := some a, ph := none, pp := PP.p0 } = 1 := by
  intro x
  have h := hocc x
  simp only [occ, ocnt_none, ocnt_some, h2, h3] at h ⊢
  omega

theorem occ_pRelS (s : QState) (a : Arena) (h2 : s.ph = some a)
    (hsec : s.sec = none) (hocc : ∀ x, occ x s = 1) :
    ∀ x, occ x { s with sec := some a, ph := none, pp := PP.p0 } = 1 := by
  intro x
  have h := hocc x
  simp only [occ, ocnt_none, ocnt_some, h2, hsec] at h ⊢
  omega

theorem occ_wGrab0 (s : QState) (hwh : s.wh = none) (hocc : ∀ x, occ x s = 1) :
    ∀ x, occ x { s with wh := s.sec, sec := none, wp := WP.w1 } = 1 := by
  intro x
  have h := hocc x
  simp only [occ, ocnt_none, ocnt_some, hwh] at h ⊢
  omega

theorem occ_wSwap (s : QState) (w : WP) (o : Option Arena) (ho : s.prim = o) :
    (∀ x, occ x s = 1) →
    ∀ x, occ x { s with prim := s.wh, wh := o, wp := w } = 1 := by
  intro hocc x
  have h := hocc x
  simp only [occ, ocnt_none, ocnt_some, ho] at h ⊢
  omega

theorem occ_wGrabS (s : QState) (a : Arena) (h2 : s.sec = some a)
    (hwh : s.wh = none) (hocc : ∀ x, occ x s = 1) :
    ∀ x, occ x { s with wh := some a, sec := none, wp := WP.w3 } = 1 := by
  intro x
  have h := hocc x
  simp only [occ, ocnt_none, ocnt_some, h2, hwh] at h ⊢
  omega

theorem occ_wWalk (s : QState) (a : Arena) (h2 : s.wh = some a)
    (hocc : ∀ x, occ x s = 1) :
    ∀ x, occ x { s with out := s.out ++ a.data, wh := some ⟨a.id, []⟩,
                        wp := WP.w1 } = 1 := by
  intro x
  have h := hocc x
  simp only [occ, ocnt_none, ocnt_some, h2] at h ⊢
  omega

theorem inv_step {s s' : QState} (hs : QueueInv s) (hstep : Step s s') :
    QueueInv s' := by
  obtain ⟨hlink, hocc, hshape⟩ := hs
  cases hstep with
  | pAcq a h1 h2 =>
    have ph0 : s.ph = none := hlink.mpr h1
    cases hwp : s.wp <;> rw [hwp] at hshape <;>
      refine ⟨by simp, occ_pAcq s a h2 ph0 hocc, ?_⟩ <;>
      simp only [shapeAt, restShape] at hshape
    · obtain ⟨hwh, hout, hsecb, hrest⟩ := hshape
      rcases hrest with ⟨f, hf, -, heq⟩ | ⟨hpn, -⟩
      · rw [h2] at hf
        obtain rfl := Option.some.inj hf
        exact ⟨hwh, hout, hsecb, Or.inr ⟨rfl, a, rfl, heq⟩⟩
      · rw [hpn] at h2
        exact absurd h2 (by simp)
    · obtain ⟨hwhe, hsec, hrest⟩ := hshape
      rcases hrest with ⟨f, hf, -, heq⟩ | ⟨hpn, -⟩
      · rw [h2] at hf
        obtain rfl := Option.some.inj hf
        exact ⟨hwhe, hsec, Or.inr ⟨rfl, a, rfl, heq⟩⟩
      · rw [hpn] at h2
        exact absurd h2 (by simp)
    · obtain ⟨hwh, hcases⟩ := hshape
      rcases hcases with ⟨-, -, f, -, -, hph, -⟩ | ⟨g, hsec, hrest⟩
      · rw [ph0] at hph
        exact absurd hph (by simp)
      · rcases hrest with ⟨f, hf, -, heq⟩ | ⟨hpn, -⟩
        · rw [h2] at hf
          obtain rfl := Option.some.inj hf
          exact ⟨hwh, Or.inr ⟨g, hsec, Or.inr ⟨rfl, a, rfl, heq⟩⟩⟩
        · rw [hpn] at h2
          exact absurd h2 (by simp)
    · obtain ⟨hsec, w, hwh, hrest⟩ := hshape
      rcases hrest with ⟨f, hf, -, heq⟩ | ⟨hpn, -⟩
      · rw [h2] at hf
        obtain rfl := Option.some.inj hf
        exact ⟨hsec, w, hwh, Or.inr ⟨rfl, a, rfl, heq⟩⟩
      · rw [hpn] at h2
        exact absurd h2 (by simp)
  | pWrite a c h1 h2 =>
    cases hwp : s.wp <;> rw [hwp] at hshape <;>
      refine ⟨by simp, occ_pWrite s a c h2 hocc, ?_⟩ <;>
      simp only [shapeAt, restShape] at hshape
    · obtain ⟨hwh, hout, hsecb, hrest⟩ := hshape
      rcases hrest with ⟨f, -, hphn, -⟩ | ⟨hpn, f, hf, heq⟩
      · rw [hphn] at h2
        exact absurd h2 (by simp)
      · rw [h2] at hf
        obtain rfl := Option.some.inj hf
        have hlist : s.out ++ ([] ++ (a.data ++ [c])) = s.enq ++ [c] := by
          rw [← heq]
          simp [List.append_assoc]
        exact ⟨hwh, hout, hsecb, Or.inr ⟨hpn, ⟨a.id, a.data ++ [c]⟩, rfl, hlist⟩⟩
    · obtain ⟨hwhe, hsec, hrest⟩ := hshape
      rcases hrest with ⟨f, -, hphn, -⟩ | ⟨hpn, f, hf, heq⟩
      · rw [hphn] at h2
        exact absurd h2 (by simp)
      · rw [h2] at hf
        obtain rfl := Option.some.inj hf
        have hlist : s.out ++ ([] ++ (a.data ++ [c])) = s.enq ++ [c] := by
          rw [← heq]
          simp [List.append_assoc]
        exact ⟨hwhe, hsec, Or.inr ⟨hpn, ⟨a.id, a.data ++ [c]⟩, rfl, hlist⟩⟩
    · obtain ⟨hwh, hcases⟩ := hshape
      rcases hcases with ⟨hsec, e, f, hprim, hed, hph, heq⟩ | ⟨g, hsec, hrest⟩
      · rw [h2] at hph
        obtain rfl := Option.some.inj hph
        have hlist : s.out ++ (a.data ++ [c]) = s.enq ++ [c] := by
          rw [← heq]
          simp [List.append_assoc]
        exact ⟨hwh, Or.inl ⟨hsec, e, ⟨a.id, a.data ++ [c]⟩, hprim, hed, rfl, hlist⟩⟩
      · rcases hrest with ⟨f, -, hphn, -⟩ | ⟨hpn, f, hf, heq⟩
        · rw [hphn] at h2
          exact absurd h2 (by simp)
        · rw [h2] at hf
          obtain rfl := Option.some.inj hf
          have hlist : s.out ++ (g.data ++ (a.data ++ [c])) = s.enq ++ [c] := by
            rw [← heq]
            simp [List.append_assoc]
          exact ⟨hwh, Or.inr ⟨g, hsec,
            Or.inr ⟨hpn, ⟨a.id, a.data ++ [c]⟩, rfl, hlist⟩⟩⟩
    · obtain ⟨hsec, w, hwh, hrest⟩ := hshape
      rcases hrest with ⟨f, -, hphn, -⟩ | ⟨hpn, f, hf, heq⟩
      · rw [hphn] at h2
        exact absurd h2 (by simp)
      · rw [h2] at hf
        obtain rfl := Option.some.inj hf
        have hlist : s.out ++ (w.data ++ (a.data ++ [c])) = s.enq ++ [c] := by
          rw [← heq]
          simp [List.append_assoc]
        exact ⟨hsec, w, hwh, Or.inr ⟨hpn, ⟨a.id, a.data ++ [c]⟩, rfl, hlist⟩⟩
  | pRelP a h1 h2 h3 =>
    cases hwp : s.wp <;> rw [hwp] at hshape <;>
      refine ⟨by simp, occ_pRelP s a h2 h3 hocc, ?_⟩ <;>
      simp only [shapeAt, restShape] at hshape
    · obtain ⟨hwh, hout, hsecb, hrest⟩ := hshape
      rcases hrest with ⟨f, -, hphn, -⟩ | ⟨hpn, f, hf, heq⟩
      · rw [hphn] at h2
        exact absurd h2 (by simp)
      · rw [h2] at hf
        obtain rfl := Option.some.inj hf
        exact ⟨hwh, hout, hsecb, Or.inl ⟨a, rfl, rfl, heq⟩⟩
    · obtain ⟨hwhe, hsec, hrest⟩ := hshape
      rcases hrest with ⟨f, -, hphn, -⟩ | ⟨hpn, f, hf, heq⟩
      · rw [hphn] at h2
        exact absurd h2 (by simp)
      · rw [h2] at hf
        obtain rfl := Option.some.inj hf
        exact ⟨hwhe, hsec, Or.inl ⟨a, rfl, rfl, heq⟩⟩
    · obtain ⟨hwh, hcases⟩ := hshape
      rcases hcases with ⟨-, e, -, hprim, -, -, -⟩ | ⟨g, hsec, hrest⟩
      · rw [h3] at hprim
        exact absurd hprim (by simp)
      · rcases hrest with ⟨f, -, hphn, -⟩ | ⟨hpn, f, hf, heq⟩
        · rw [hphn] at h2
          exact absurd h2 (by simp)
        · rw [h2] at hf
          obtain rfl := Option.some.inj hf
          exact ⟨hwh, Or.inr ⟨g, hsec, Or.inl ⟨a, rfl, rfl, heq⟩⟩⟩
    · obtain ⟨hsec, w, hwh, hrest⟩ := hshape
      rcases hrest with ⟨f, -, hphn, -⟩ | ⟨hpn, f, hf, heq⟩
      · rw [hphn] at h2
        exact absurd h2 (by simp)
      · rw [h2] at hf
        obtain rfl := Option.some.inj hf
        exact ⟨hsec, w, hwh, Or.inl ⟨a, rfl, rfl, heq⟩⟩
  | pRelS a b h1 h2 h3 =>
    cases hwp : s.wp <;> rw [hwp] at hshape <;>
      simp only [shapeAt, restShape] at hshape
    · obtain ⟨-, -, -, hrest⟩ := hshape
      rcases hrest with ⟨f, -, hphn, -⟩ | ⟨hpn, -⟩
      · rw [hphn] at h2
        exact absurd h2 (by simp)
      · rw [hpn] at h3
        exact absurd h3 (by simp)
    · obtain ⟨-, -, hrest⟩ := hshape
      rcases hrest with ⟨f, -, hphn, -⟩ | ⟨hpn, -⟩
      · rw [hphn] at h2
        exact absurd h2 (by simp)
      · rw [hpn] at h3
        exact absurd h3 (by simp)
    · obtain ⟨hwh, hcases⟩ := hshape
      rcases hcases with ⟨hsec, e, f, hprim, hed, hph, heq⟩ | ⟨g, -, hrest⟩
      · rw [h2] at hph
        obtain rfl := Option.some.inj hph
        refine ⟨by simp, occ_pRelS s a h2 hsec hocc, ?_⟩
        have hlist : s.out ++ (a.data ++ e.data) = s.enq := by
          rw [hed, List.append_nil]
          exact heq
        exact ⟨hwh, Or.inr ⟨a, rfl, Or.inl ⟨e, hprim, rfl, hlist⟩⟩⟩
      · rcases hrest with ⟨f, -, hphn, -⟩ | ⟨hpn, -⟩
        · rw [hphn] at h2
          exact absurd h2 (by simp)
        · rw [hpn] at h3
          exact absurd h3 (by simp)
    · obtain ⟨-, w, -, hrest⟩ := hshape
      rcases hrest with ⟨f, -, hphn, -⟩ | ⟨hpn, -⟩
      · rw [hphn] at h2
        exact absurd h2 (by simp)
      · rw [hpn] at h3
        exact absurd h3 (by simp)
  | wGrab0 h1 =>
    rw [h1] at hshape
    simp only [shapeAt, restShape] at hshape
    obtain ⟨hwh, hout, ⟨b, hsec, hbd⟩, hrest⟩ := hshape
    refine ⟨hlink, occ_wGrab0 s hwh hocc, ?_⟩
    exact ⟨⟨b, hsec, hbd⟩, rfl, hrest⟩
  | wSwapSome a h1 h2 =>
    rw [h1] at hshape
    simp only [shapeAt, restShape] at hshape
    obtain ⟨⟨e, hwh, hed⟩, hsec, hrest⟩ := hshape
    rcases hrest with ⟨f, hf, hphn, heq⟩ | ⟨hpn, -⟩
    · rw [h2] at hf
      obtain rfl := Option.some.inj hf
      refine ⟨hlink, occ_wSwap s WP.w3 (some a) h2 hocc, ?_⟩
      have hlist : s.out ++ (a.data ++ e.data) = s.enq := by
        rw [hed, List.append_nil]
        rw [List.nil_append] at heq
        exact heq
      exact ⟨hsec, a, rfl, Or.inl ⟨e, hwh, hphn, hlist⟩⟩
    · rw [hpn] at h2
      exact absurd h2 (by simp)
  | wSwapNone h1 h2 =>
    rw [h1] at hshape
    simp only [shapeAt, restShape] at hshape
    obtain ⟨⟨e, hwh, hed⟩, hsec, hrest⟩ := hshape
    rcases hrest with ⟨f, hf, -, -⟩ | ⟨hpn, f, hf, heq⟩
    · rw [h2] at hf
      exact absurd hf (by simp)
    · refine ⟨hlink, occ_wSwap s WP.w2 none h2 hocc, ?_⟩
      have hlist : s.out ++ f.data = s.enq := by
        rw [List.nil_append] at heq
        exact heq
      exact ⟨rfl, Or.inl ⟨hsec, e, f, hwh, hed, hf, hlist⟩⟩
  | wGrabS a h1 h2 =>
    rw [h1] at hshape
    simp only [shapeAt, restShape] at hshape
    obtain ⟨hwh, hcases⟩ := hshape
    rcases hcases with ⟨hsec, -⟩ | ⟨g, hsec, hrest⟩
    · rw [hsec] at h2
      exact absurd h2 (by simp)
    · rw [h2] at hsec
      obtain rfl := Option.some.inj hsec
      refine ⟨hlink, occ_wGrabS s a h2 hwh hocc, ?_⟩
      exact ⟨rfl, a, rfl, hrest⟩
  | wWalk a h1 h2 =>
    rw [h1] at hshape
    simp only [shapeAt, restShape] at hshape
    obtain ⟨hsec, w, hwh, hrest⟩ := hshape
    rw [h2] at hwh
    obtain rfl := Option.some.inj hwh
    refine ⟨hlink, occ_wWalk s a h2 hocc, ?_⟩
    refine ⟨⟨⟨a.id, []⟩, rfl, rfl⟩, hsec, ?_⟩
    rcases hrest with ⟨f, hf, hphn, heq⟩ | ⟨hpn, f, hf, heq⟩
    · refine Or.inl ⟨f, hf, hphn, ?_⟩
      show (s.out ++ a.data) ++ ([] ++ f.data) = s.enq
      rw [List.nil_append, List.append_assoc]
      exact heq
    · refine Or.inr ⟨hpn, f, hf, ?_⟩
      show (s.out ++ a.data) ++ ([] ++ f.data) = s.enq
      rw [List.nil_append, List.append_assoc]
      exact heq

theorem reachable_inv {s : QState} (h : Reachable s) : QueueInv s := by
  induction h with
  | init => exact inv_init
  | step _ hstep ih => exact inv_step ih hstep

theorem out_append_of_inv {s : QState} (h : QueueInv s) :
    ∃ t, s.out ++ t = s.enq := by
  obtain ⟨-, -, hshape⟩ := h
  cases hwp : s.wp <;> rw [hwp] at hshape <;>
    simp only [shapeAt, restShape] at hshape
  · obtain ⟨-, hout, -, hrest⟩ := hshape
    rcases hrest with ⟨f, -, -, heq⟩ | ⟨-, f, -, heq⟩ <;>
      exact ⟨[] ++ f.data, heq⟩
  · obtain ⟨-, -, hrest⟩ := hshape
    rcases hrest with ⟨f, -, -, heq⟩ | ⟨-, f, -, heq⟩ <;>
      exact ⟨[] ++ f.data, heq⟩
  · obtain ⟨-, hcases⟩ := hshape
    rcases hcases with ⟨-, e, f, -, -, -, heq⟩ | ⟨g, -, hrest⟩
    · exact ⟨f.data, heq⟩
    · rcases hrest with ⟨f, -, -, heq⟩ | ⟨-, f, -, heq⟩ <;>
        exact ⟨g.data ++ f.data, heq⟩
  · obtain ⟨-, w, -, hrest⟩ := hshape
    rcases hrest with ⟨f, -, -, heq⟩ | ⟨-, f, -, heq⟩ <;>
      exact ⟨w.data ++ f.data, heq⟩

theorem U32_eq : U32 = 4294967296 := by norm_num [U32]

theorem allocCommand_spec (b : queue_buffer_t) (fn ds : Nat)
    (h1 : 1 ≤ b.size) (h2 : b.used + (PTRSIZE + U32SIZE + ds) ≤ 2 ^ 31) :
    ∃ b' off, allocCommand b fn ds = some (b', off) ∧
      b'.used = b.used + (PTRSIZE + U32SIZE + ds) ∧
      b'.used ≤ b'.size ∧ b.size ≤ b'.size ∧ ∃ k, b'.size = b.size * 2 ^ k := by
  have hmod1 : (PTRSIZE + U32SIZE + ds) % U32 = PTRSIZE + U32SIZE + ds := by
    rw [U32_eq]
    apply Nat.mod_eq_of_lt
    omega
  have hmod2 : (b.used + (PTRSIZE + U32SIZE + ds)) % U32 =
      b.used + (PTRSIZE + U32SIZE + ds) := by
    rw [U32_eq]
    apply Nat.mod_eq_of_lt
    omega
  by_cases hgrow : b.used + (PTRSIZE + U32SIZE + ds) > b.size
  · obtain ⟨s', hs', hneed, hle, k, hk⟩ :=
      growLoop_spec 33 b.size (b.used + (PTRSIZE + U32SIZE + ds)) h1 hgrow h2
        (by
          have h33 : (2 : Nat) ^ 31 ≤ 2 ^ 33 :=
            Nat.pow_le_pow_right (by omega) (by omega)
          calc b.used + (PTRSIZE + U32SIZE + ds) ≤ 2 ^ 31 := h2
            _ ≤ 2 ^ 33 := h33
            _ = 1 * 2 ^ 33 := (Nat.one_mul _).symm
            _ ≤ b.size * 2 ^ 33 := Nat.mul_le_mul_right _ h1)
    refine ⟨⟨writeBytesAt (b.commands ++ List.replicate (s' - b.commands.length) 0)
        b.used (encodeLE PTRSIZE fn ++ encodeLE U32SIZE (PTRSIZE + U32SIZE + ds)),
        s', b.used + (PTRSIZE + U32SIZE + ds)⟩,
      b.used + PTRSIZE + U32SIZE, ?_, rfl, hneed, hle, k, hk⟩
    simp only [allocCommand, hmod1, hmod2, if_pos hgrow, hs']
  · refine ⟨⟨writeBytesAt (b.commands ++ List.replicate (b.size - b.commands.length) 0)
        b.used (encodeLE PTRSIZE fn ++ encodeLE U32SIZE (PTRSIZE + U32SIZE + ds)),
        b.size, b.used + (PTRSIZE + U32SIZE + ds)⟩,
      b.used + PTRSIZE + U32SIZE, ?_, rfl, Nat.le_of_not_lt hgrow, le_refl _, 0,
      by simp⟩
    simp only [allocCommand, hmod1, hmod2, if_neg hgrow]

theorem runArena_preserves (a : queue_buffer_t) (evs : List (Nat × Nat))
    (a' : queue_buffer_t) (h : runArena a = some (evs, a')) :
    a'.size = a.size ∧ a'.commands = a.commands := by
  by_cases ha : a.used ≠ 0
  · simp only [runArena, if_pos ha] at h
    obtain ⟨evs0, -, heq⟩ := Option.map_eq_some'.mp h
    have h2 : ({ a with used := 0 } : queue_buffer_t) = a' := congrArg Prod.snd heq
    rw [← h2]
    exact ⟨rfl, rfl⟩
  · simp only [runArena, if_neg ha] at h
    have h2 : a = a' := congrArg Prod.snd (Option.some.inj h)
    rw [← h2]
    exact ⟨rfl, rfl⟩

/-- A concrete reachable state: the producer enqueues commands 0 and 1
(two acquire/write/release cycles, both CAS releases succeeding), then the
worker grabs B from `secondary`, swaps it into `primary` taking the filled
arena A, and walks it, invoking 0 then 1. -/
def exampleState : QState :=
  { prim := some ⟨AB.B, []⟩, sec := none, ph := none, wh := some ⟨AB.A, []⟩,
    wp := WP.w1, pp := PP.p0, out := [0, 1], enq := [0, 1] }

theorem reach_example : Reachable exampleState := by
  have r0 : Reachable QState.init := Reachable.init
  have r1 := Reachable.step r0 (Step.pAcq QState.init ⟨AB.A, []⟩ rfl rfl)
  have r2 := Reachable.step r1 (Step.pWrite _ ⟨AB.A, []⟩ 0 rfl rfl)
  have r3 := Reachable.step r2 (Step.pRelP _ ⟨AB.A, [0]⟩ rfl rfl rfl)
  have r4 := Reachable.step r3 (Step.pAcq _ ⟨AB.A, [0]⟩ rfl rfl)
  have r5 := Reachable.step r4 (Step.pWrite _ ⟨AB.A, [0]⟩ 1 rfl rfl)
  have r6 := Reachable.step r5 (Step.pRelP _ ⟨AB.A, [0, 1]⟩ rfl rfl rfl)
  have r7 := Reachable.step r6 (Step.wGrab0 _ rfl)
  have r8 := Reachable.step r7 (Step.wSwapSome _ ⟨AB.A, [0, 1]⟩ rfl rfl)
  have r9 := Reachable.step r8 (Step.wWalk _ ⟨AB.A, [0, 1]⟩ rfl rfl)
  exact r9

/-- Claim C1 counterexample: with the primary slot empty, `releaseBuffer`'s
compare-and-swap succeeds and the arena returns to primary — yet the signal
component is `true`: the source notifies the dispatch condition variable
unconditionally (line 161 sits after the `if`, not in its else branch), so
"the dispatch condvar is signalled only on the secondary path, never on a
successful return to primary" is false at this input. -/
theorem releaseBuffer_signals_after_cas_success :
    releaseBuffer none none ⟨AB.A, []⟩ = (some ⟨AB.A, []⟩, none, true) := rfl

/-- Claim C1 as amended: when a producer releases an arena it first attempts
a compare-and-swap of the null sentinel in the primary slot with the arena;
if that succeeds the arena is back in primary and the secondary slot is
untouched, and only when the CAS fails (another arena already occupies
primary) is the arena stored into the secondary slot — but the dispatch
condition variable is signalled unconditionally at the end of
`releaseBuffer`, on both paths. -/
theorem releaseBuffer_spec (prim sec : Option Arena) (b : Arena) :
    (prim = none → releaseBuffer prim sec b = (some b, sec, true)) ∧
    (∀ p, prim = some p → releaseBuffer prim sec b = (some p, some b, true)) := by
  constructor
  · rintro rfl
    rfl
  · rintro p rfl
    rfl

/-- Witness for C1's amended theorem: both release paths at concrete
inputs. -/
theorem releaseBuffer_spec_witness :
    releaseBuffer none none ⟨AB.B, []⟩ = (some ⟨AB.B, []⟩, none, true) ∧
    releaseBuffer (some ⟨AB.A, []⟩) none ⟨AB.B, []⟩ =
      (some ⟨AB.A, []⟩, some ⟨AB.B, []⟩, true) :=
  ⟨(releaseBuffer_spec none none ⟨AB.B, []⟩).1 rfl,
   (releaseBuffer_spec (some ⟨AB.A, []⟩) none ⟨AB.B, []⟩).2 ⟨AB.A, []⟩ rfl⟩

/-- Claim C2: arena conservation.  At every reachable state of the step
relation generated by producer acquire, producer release and the worker's
exchange cycle, each of the two arenas A and B occurs exactly once in the
multiset of the four ownership cells primary slot / secondary slot /
producer-held / worker-held: no arena is duplicated or lost (and, the cells
being single slots, no party ever holds both arenas at once). -/
theorem arena_conservation (s : QState) (h : Reachable s) :
    occ AB.A s = 1 ∧ occ AB.B s = 1 :=
  ⟨(reachable_inv h).2.1 AB.A, (reachable_inv h).2.1 AB.B⟩

/-- Witness for C2 at a concrete reachable state. -/
theorem arena_conservation_witness :
    occ AB.A exampleState = 1 ∧ occ AB.B exampleState = 1 :=
  arena_conservation exampleState reach_example

/-- Claim C4: single-producer FIFO.  In every reachable state, the sequence
of commands the worker has invoked (`out`) is a prefix of the sequence the
producer enqueued (`enq`): the worker invokes the handlers of commands
c1, c2, ..., cn in exactly the order the producer enqueued them, across
arena swaps (buffer growth only moves the backing bytes and does not
reorder records within an arena). -/
theorem single_producer_fifo (s : QState) (h : Reachable s) :
    s.out <+: s.enq := by
  obtain ⟨t, ht⟩ := out_append_of_inv (reachable_inv h)
  exact ⟨t, ht⟩

/-- Witness for C4 at a concrete reachable state: the worker's invocation
order equals the enqueue order 0, 1. -/
theorem single_producer_fifo_witness :
    exampleState.out <+: exampleState.enq :=
  single_producer_fifo exampleState reach_example

/-- Claim C3: join fence / no lost work.  `join()` enqueues a sentinel
record (`join_cb`) after all commands the calling thread enqueued before it,
and returns only after the sentinel has set its done flag — which happens
when the worker invokes the sentinel, i.e. when the sentinel is in `out`.
So: if command `c` was enqueued before the sentinel `cJ` (`c` is in the
part of `enq` preceding `cJ`'s record, which is unique because its payload
holds the address of a fresh local flag), and the sentinel has been invoked,
then `c`'s handler has been invoked. -/
theorem join_fence (s : QState) (l1 l2 : List Nat) (c cJ : Nat)
    (hreach : Reachable s) (henq : s.enq = l1 ++ cJ :: l2)
    (hnotin : cJ ∉ l1) (hc : c ∈ l1) (hdone : cJ ∈ s.out) : c ∈ s.out := by
  obtain ⟨t, ht⟩ := out_append_of_inv (reachable_inv hreach)
  have hout : s.out <+: s.enq := ⟨t, ht⟩
  have hl1 : l1 <+: s.enq := by
    rw [henq]
    exact ⟨cJ :: l2, rfl⟩
  rcases List.prefix_or_prefix_of_prefix hout hl1 with hp | hp
  · exact absurd (hp.subset hdone) hnotin
  · exact hp.subset hc

/-- Witness for C3: in the concrete run, command 0 precedes the sentinel 1,
the sentinel has executed, and indeed 0 has executed. -/
theorem join_fence_witness : (0 : Nat) ∈ exampleState.out :=
  join_fence exampleState [0] [] 0 1 reach_example rfl (by decide) (by decide)
    (by decide)

/-- Claim C5: worker arena walk.  For every arena whose bytes `[0, used)`
are a concatenation of well-formed records (with arbitrary bytes beyond
`used`), the walk starts at byte 0, invokes each record's handler exactly
once with a pointer to that record's payload (the record base plus the
handler-pointer slot plus the `uint32` slot), advances the cursor by the
record's length-slot value, stops when the cursor reaches `used`, and
afterwards sets `used` to 0 while leaving the capacity (`size`) and the
backing byte pointer (`commands`) unchanged. -/
theorem worker_walk_spec (rs : List CmdRec) (rest : List Nat)
    (b : queue_buffer_t) (hne : rs ≠ []) (hwf : ∀ r ∈ rs, wfRec r)
    (hcmd : b.commands = recBytes rs ++ rest)
    (hused : b.used = (recBytes rs).length) :
    runArena b = some (recEvents 0 rs, { b with used := 0 }) := by
  have hpos : b.used ≠ 0 := by
    rw [hused]
    exact Nat.pos_iff_ne_zero.mp (length_recBytes_pos rs hne)
  have hwalk : walkFrom b.commands b.used b.used 0 = some (recEvents 0 rs) := by
    apply walkFrom_spec rs 0 b.used b.commands rest b.used hne hwf
    · rw [List.drop_zero, hcmd]
    · rw [Nat.zero_add]
      exact hused
    · rw [hused]
      exact length_le_length_recBytes rs
  simp only [runArena, if_pos hpos, hwalk]
  rfl

/-- Witness for C5: a one-record arena (handler 5, one payload byte 9,
record length 13): the walk emits exactly the event (handler 5, payload
offset 12) and resets `used` to 0 keeping bytes and capacity. -/
theorem wf_example : ∀ r ∈ [({ fn := 5, payload := [9] } : CmdRec)], wfRec r := by
  intro r hr
  simp only [List.mem_singleton] at hr
  subst hr
  exact ⟨by decide, by decide⟩

theorem worker_walk_spec_witness :
    runArena { commands := recBytes [⟨5, [9]⟩], size := 13, used := 13 } =
      some ([(5, 12)],
        { commands := recBytes [⟨5, [9]⟩], size := 13, used := 0 }) := by
  have h := worker_walk_spec [⟨5, [9]⟩] []
    { commands := recBytes [⟨5, [9]⟩], size := 13, used := 13 }
    (by simp) wf_example (by simp) (by decide)
  exact h

/-- Claim C9 (implicit): walk termination.  For every arena whose bytes
`[0, used)` concatenate records each carrying a length slot of at least
the two header slots' size — which every enqueue writes, since the stored
length is `sizeof(TCB*) + sizeof(uint32_t) + size` by construction of
`encRec` — the worker's do-while walk terminates: the cursor strictly
increases each iteration (each record length is positive), and the loop
exits after exactly one iteration per record, witnessed by the walk
succeeding with fuel exactly the number of records and emitting exactly one
event per record. -/
theorem walk_terminates (rs : List CmdRec) (rest : List Nat)
    (hne : rs ≠ []) (hwf : ∀ r ∈ rs, wfRec r) :
    ∃ evs, walkFrom (recBytes rs ++ rest) (recBytes rs).length rs.length 0 =
        some evs ∧ evs.length = rs.length := by
  refine ⟨recEvents 0 rs, ?_, length_recEvents 0 rs⟩
  apply walkFrom_spec rs 0 rs.length (recBytes rs ++ rest) rest
    (recBytes rs).length hne hwf
  · rw [List.drop_zero]
  · rw [Nat.zero_add]
  · exact le_refl _

/-- Witness for C9: one record, one unit of fuel, one event. -/
theorem walk_terminates_witness :
    ∃ evs, walkFrom (recBytes [⟨5, [9]⟩] ++ [7]) 13 1 0 = some evs ∧
      evs.length = 1 :=
  walk_terminates [⟨5, [9]⟩] [7] (by simp) wf_example

/-- Claim C8: buffer growth policy.  Reserving space for a record (whose
total size stays within the 32-bit range assumed) makes the arena's
capacity at least `used` plus the record size, by doubling the capacity as
many times as necessary, so the new capacity is the old capacity times a
power of two (whence, by induction over reservations, the initial capacity
times a power of two); the capacity never decreases under a reservation,
and the worker's walk/reset leaves the capacity unchanged. -/
theorem alloc_growth (b : queue_buffer_t) (fn ds : Nat)
    (h1 : 1 ≤ b.size) (h2 : b.used + (PTRSIZE + U32SIZE + ds) ≤ 2 ^ 31) :
    (∃ b' off, allocCommand b fn ds = some (b', off) ∧
      b.used + (PTRSIZE + U32SIZE + ds) ≤ b'.size ∧
      b.size ≤ b'.size ∧ ∃ k, b'.size = b.size * 2 ^ k) ∧
    ∀ (a : queue_buffer_t) (evs : List (Nat × Nat)) (a' : queue_buffer_t),
      runArena a = some (evs, a') → a'.size = a.size := by
  constructor
  · obtain ⟨b', off, heval, hused, hle1, hle2, k, hk⟩ :=
      allocCommand_spec b fn ds h1 h2
    refine ⟨b', off, heval, ?_, hle2, k, hk⟩
    omega
  · intro a evs a' h
    exact (runArena_preserves a evs a' h).1

/-- Witness for C8 at a concrete buffer (capacity 1, empty): reserving a
12-byte record grows the capacity to 16 = 1 * 2 ^ 4 ≥ 12. -/
theorem alloc_growth_witness :
    (∃ b' off, allocCommand { commands := [], size := 1, used := 0 } 0 0 =
        some (b', off) ∧
      0 + (PTRSIZE + U32SIZE + 0) ≤ b'.size ∧ 1 ≤ b'.size ∧
      ∃ k, b'.size = 1 * 2 ^ k) ∧
    ∀ (a : queue_buffer_t) (evs : List (Nat × Nat)) (a' : queue_buffer_t),
      runArena a = some (evs, a') → a'.size = a.size :=
  alloc_growth { commands := [], size := 1, used := 0 } 0 0 (by decide)
    (by decide)

/-- Claim C10 (implicit): growth-loop termination.  For every buffer with
capacity at least 1 and every reservation whose resulting total stays at
most `2 ^ 31`, the capacity-doubling loop of `allocCommand` terminates and
establishes `used ≤ size`.  The capacity hypothesis matters at the public
interface because `CommandQueue(size)` accepts 0 and the loop's `uint32_t`
doubling wraps modulo `2 ^ 32`: on a zero-capacity buffer the loop doubles
0 forever (`allocCommand` returns `none`, the fuel bound 33 covering every
32-bit doubling sequence). -/
theorem alloc_terminates (b : queue_buffer_t) (fn ds : Nat)
    (h1 : 1 ≤ b.size) (h2 : b.used + (PTRSIZE + U32SIZE + ds) ≤ 2 ^ 31) :
    (∃ b' off, allocCommand b fn ds = some (b', off) ∧ b'.used ≤ b'.size) ∧
    allocCommand { commands := [], size := 0, used := 0 } 0 0 = none := by
  constructor
  · obtain ⟨b', off, heval, -, hle1, -, -⟩ := allocCommand_spec b fn ds h1 h2
    exact ⟨b', off, heval, hle1⟩
  · rfl

/-- Witness for C10: the terminating case at capacity 1 and the diverging
zero-capacity case. -/
theorem alloc_terminates_witness :
    (∃ b' off, allocCommand { commands := [], size := 1, used := 0 } 0 0 =
        some (b', off) ∧ b'.used ≤ b'.size) ∧
    allocCommand { commands := [], size := 0, used := 0 } 0 0 = none :=
  alloc_terminates { commands := [], size := 1, used := 0 } 0 0 (by decide)
    (by decide)
